import Mathlib

/-!
Shallow embedding of the request-handling and write-coordination layer of a
disk-backed HTTP cache server (source: `src/cache/http.go`, package `cache`).

The Go source is translated definition by definition:

* `blobNameSHA256` — the anchored regular expression
  `^/?(.*/)?(ac/|cas/)([a-f0-9]{64})$` together with
  `FindStringSubmatch`, written as a deterministic matcher (the pattern is
  anchored and the hash group has fixed length 64, so the match and both
  captures are uniquely determined by the input string; `.` in Go's regexp
  package matches any character except a newline).
* `cacheItemFromRequestPath`, `saveToDisk`, `startUpload` / `stopUpload`,
  `discardUpload` and `CacheHandler` — direct translations; filesystem and
  network effects are made explicit in result records, and fallible
  operations (temp-file creation, the body copy, `f.Sync()`, `os.Rename`,
  `os.Remove`) take their outcomes from an explicit fault record so that
  every failure path of the Go code is a reachable branch of the model.
* Go library functions used by the source (`crypto/sha256`,
  `encoding/hex`, `html.EscapeString`, `path/filepath.Join` / `Clean` /
  `Dir`, `net.SplitHostPort`, `fmt` padding) are implemented faithfully on
  `List Char` / `Nat`.

The `Cache` and `EnsureSpacer` collaborators are defined in other files of
the repository; here the cache-index is an abstract record of the
operations `http.go` uses, and the space-ensurer an abstract function
(see `CacheIndex` below).
-/

/-! ## Characters, hex, HTML escaping, padding -/

/-- The character class `[a-f0-9]` of the blob-name regular expression. -/
def isLowerHexChar (c : Char) : Bool :=
  (('a' ≤ c) && (c ≤ 'f')) || (('0' ≤ c) && (c ≤ '9'))

/-- Go `html.EscapeString`: replaces `&`, single quote, `<`, `>` and double
quote by their HTML entities; every other character is kept. -/
def htmlEscapeChar (c : Char) : List Char :=
  if c = '&' then "&amp;".data
  else if c = '\'' then "&#39;".data
  else if c = '<' then "&lt;".data
  else if c = '>' then "&gt;".data
  else if c = '\"' then "&#34;".data
  else [c]

/-- Go `html.EscapeString` on a string. -/
def htmlEscapeString (s : String) : String :=
  String.mk (s.data.flatMap htmlEscapeChar)

/-- `fmt` right-justified padding `%Ns`: spaces are prepended until the
string has at least `n` characters. -/
def padLeft (n : Nat) (s : String) : String :=
  String.mk (List.replicate (n - s.length) ' ') ++ s

/-- Index of the first occurrence of `c` in `cs`. -/
def firstIdxOf (cs : List Char) (c : Char) : Option Nat :=
  match cs with
  | [] => none
  | x :: xs =>
      if x = c then some 0
      else match firstIdxOf xs c with
           | some i => some (i + 1)
           | none => none

/-- Index of the last occurrence of `c` in `cs`. -/
def lastIdxOf (cs : List Char) (c : Char) : Option Nat :=
  match cs with
  | [] => none
  | x :: xs =>
      match lastIdxOf xs c with
      | some i => some (i + 1)
      | none => if x = c then some 0 else none

/-! ## SHA-256 (Go `crypto/sha256` + `encoding/hex`)

Bytes are `Nat`s below 256, 32-bit words are `Nat`s below 2^32 with
wrap-around made explicit by reduction modulo 2^32. -/

/-- Truncation to a 32-bit word. -/
def w32 (n : Nat) : Nat := n % 4294967296

/-- 32-bit right rotation (argument assumed below 2^32). -/
def rotr32 (n x : Nat) : Nat := w32 ((x >>> n) + ((x % (2 ^ n)) * 2 ^ (32 - n)))

/-- SHA-256 small sigma 0. -/
def ssig0 (x : Nat) : Nat := (rotr32 7 x) ^^^ (rotr32 18 x) ^^^ (x >>> 3)

/-- SHA-256 small sigma 1. -/
def ssig1 (x : Nat) : Nat := (rotr32 17 x) ^^^ (rotr32 19 x) ^^^ (x >>> 10)

/-- SHA-256 big sigma 0. -/
def bsig0 (x : Nat) : Nat := (rotr32 2 x) ^^^ (rotr32 13 x) ^^^ (rotr32 22 x)

/-- SHA-256 big sigma 1. -/
def bsig1 (x : Nat) : Nat := (rotr32 6 x) ^^^ (rotr32 11 x) ^^^ (rotr32 25 x)

/-- SHA-256 choice function. -/
def sha256ch (x y z : Nat) : Nat := (x &&& y) ^^^ ((x ^^^ 4294967295) &&& z)

/-- SHA-256 majority function. -/
def sha256maj (x y z : Nat) : Nat := (x &&& y) ^^^ (x &&& z) ^^^ (y &&& z)

/-- The 64 SHA-256 round constants (the fractional parts of the cube
roots of the first 64 primes, as 32-bit words, written in decimal). -/
def sha256K : List Nat :=
  [1116352408, 1899447441, 3049323471, 3921009573, 961987163,
   1508970993, 2453635748, 2870763221, 3624381080, 310598401,
   607225278, 1426881987, 1925078388, 2162078206, 2614888103,
   3248222580, 3835390401, 4022224774, 264347078, 604807628,
   770255983, 1249150122, 1555081692, 1996064986, 2554220882,
   2821834349, 2952996808, 3210313671, 3336571891, 3584528711,
   113926993, 338241895, 666307205, 773529912, 1294757372,
   1396182291, 1695183700, 1986661051, 2177026350, 2456956037,
   2730485921, 2820302411, 3259730800, 3345764771, 3516065817,
   3600352804, 4094571909, 275423344, 430227734, 506948616,
   659060556, 883997877, 958139571, 1322822218, 1537002063,
   1747873779, 1955562222, 2024104815, 2227730452, 2361852424,
   2428436474, 2756734187, 3204031479, 3329325298]

/-- The SHA-256 initial hash value (written in decimal). -/
def sha256H0 : List Nat :=
  [1779033703, 3144134277, 1013904242, 2773480762,
   1359893119, 2600822924, 528734635, 1541459225]

/-- `k` bytes of `v` in big-endian order. -/
def bytesBE : Nat → Nat → List Nat
  | 0, _ => []
  | k + 1, v => bytesBE k (v / 256) ++ [v % 256]

/-- SHA-256 message padding: `0x80`, zeros, then the bit length in 8
big-endian bytes, to a multiple of 64 bytes. -/
def sha256pad (msg : List Nat) : List Nat :=
  let len := msg.length
  msg ++ [0x80] ++ List.replicate ((64 - ((len + 9) % 64)) % 64) 0
      ++ bytesBE 8 (8 * len)

/-- Groups of 4 bytes read as big-endian 32-bit words. -/
def toWordsBE : List Nat → List Nat
  | b0 :: b1 :: b2 :: b3 :: rest =>
      (((b0 * 256 + b1) * 256 + b2) * 256 + b3) :: toWordsBE rest
  | _ => []

/-- Message-schedule extension: appends `k` further words to `ws`. -/
def sha256extend : Nat → Array Nat → Array Nat
  | 0, ws => ws
  | k + 1, ws =>
      let i := ws.size
      let x := w32 (ws.getD (i - 16) 0 + ssig0 (ws.getD (i - 15) 0)
                    + ws.getD (i - 7) 0 + ssig1 (ws.getD (i - 2) 0))
      sha256extend k (ws.push x)

/-- One SHA-256 compression round on the eight-word working state. -/
def sha256round (st : List Nat) (kw : Nat × Nat) : List Nat :=
  match st with
  | [a, b, c, d, e, f, g, h] =>
      let t1 := w32 (h + bsig1 e + sha256ch e f g + kw.1 + kw.2)
      let t2 := w32 (bsig0 a + sha256maj a b c)
      [w32 (t1 + t2), a, b, c, w32 (d + t1), e, f, g]
  | other => other

/-- Compression of one 64-byte block into the chaining state. -/
def sha256block (hs : List Nat) (block : List Nat) : List Nat :=
  let ws := sha256extend 48 (Array.mk (toWordsBE block))
  let fin := (sha256K.zip ws.toList).foldl (fun st kw => sha256round st (kw.1, kw.2)) hs
  List.zipWith (fun x y => w32 (x + y)) hs fin

/-- Folds the compression function over the `k` 64-byte blocks of the
padded message (structural recursion on the block count so that the
definition reduces inside the kernel). -/
def sha256blocks : Nat → List Nat → List Nat → List Nat
  | 0, hs, _ => hs
  | k + 1, hs, padded =>
      sha256blocks k (sha256block hs (padded.take 64)) (padded.drop 64)

/-- SHA-256 of a byte sequence, as 32 bytes. -/
def sha256 (msg : List Nat) : List Nat :=
  let padded := sha256pad msg
  (sha256blocks (padded.length / 64) sha256H0 padded).flatMap (bytesBE 4)

/-- One lowercase hex digit. -/
def hexDigit (n : Nat) : Char :=
  "0123456789abcdef".data.getD n '0'

/-- Go `hex.EncodeToString`: lowercase hex of a byte sequence. -/
def hexEncode (bs : List Nat) : String :=
  String.mk (bs.flatMap (fun b => [hexDigit (b / 16), hexDigit (b % 16)]))

/-- `hex.EncodeToString(sha256.Sum(...))` — the digest string the Go code
compares against the request hash. -/
def sha256hex (msg : List Nat) : String :=
  hexEncode (sha256 msg)

/-! ## Go `path/filepath` (unix): `Clean`, `Join`, `Dir` -/

/-- Splits a character list at every `/` (the unix separator); the
separators themselves are dropped, empty segments are kept. -/
def splitSeg : List Char → List (List Char)
  | [] => [[]]
  | c :: cs =>
      if c = '/' then [] :: splitSeg cs
      else
        match splitSeg cs with
        | [] => [[c]]
        | s :: rest => (c :: s) :: rest

/-- Rebuilds a path from segments, putting `/` between them. -/
def interSlash : List (List Char) → List Char
  | [] => []
  | [s] => s
  | s :: rest => s ++ '/' :: interSlash rest

/-- A segment survives `Clean`'s first pass when it is neither empty nor
`.`. -/
def keepSeg (s : List Char) : Bool :=
  !(s = [] : Bool) && !(s = ['.'] : Bool)

/-- `Clean`'s `..` handling: from the root a `..` is dropped; in a relative
path a leading `..` (or one stacked on another) is kept; otherwise it pops
the previous segment. The accumulator holds the output in reverse. -/
def resolveDots (rooted : Bool) : List (List Char) → List (List Char) → List (List Char)
  | acc, [] => acc.reverse
  | acc, s :: rest =>
      if s = ['.', '.'] then
        match acc with
        | [] => if rooted then resolveDots rooted [] rest
                else resolveDots rooted [s] rest
        | a :: as =>
            if a = ['.', '.'] then resolveDots rooted (s :: acc) rest
            else resolveDots rooted as rest
      else resolveDots rooted (s :: acc) rest

/-- Go `filepath.Clean` on a unix path: drops empty and `.` segments,
resolves `..` lexically, keeps the path rooted when it was, and returns
`.` for an empty relative result. -/
def goClean (cs : List Char) : List Char :=
  let rooted := cs.head? = some '/'
  let out := resolveDots rooted [] ((splitSeg cs).filter keepSeg)
  if rooted then '/' :: interSlash out
  else if out = [] then ['.']
  else interSlash out

/-- Go `filepath.Join`: all elements from the first non-empty one joined
with `/`, then cleaned; the empty string when every element is empty. -/
def goJoin (elems : List (List Char)) : List Char :=
  match elems.dropWhile (fun e => e = ([] : List Char)) with
  | [] => []
  | es => goClean (interSlash es)

/-- Go `filepath.Dir`: everything up to (and including) the final `/`,
cleaned; `.` when there is no separator. -/
def goDirName (cs : List Char) : List Char :=
  match lastIdxOf cs '/' with
  | none => ['.']
  | some i => goClean (cs.take (i + 1))

/-! ## Go `net.SplitHostPort`

Only the host result matters to `http.go` (it falls back to the raw
address on error), so the model returns `some host` on success and `none`
where Go reports an error. -/

/-- Go `net.SplitHostPort`, host portion: splits at the last colon, with
`[...]` bracket handling for IPv6 literals; `none` on every error path
(missing port, stray bracket, too many colons). -/
def splitHostPort (s : String) : Option String :=
  let cs := s.data
  match lastIdxOf cs ':' with
  | none => none
  | some i =>
      if cs.head? = some '[' then
        match firstIdxOf cs ']' with
        | none => none
        | some e =>
            if e + 1 = cs.length then none
            else if e + 1 = i then
              if (firstIdxOf (cs.drop 1) '[').isSome then none
              else if (firstIdxOf (cs.drop (e + 1)) ']').isSome then none
              else some (String.mk ((cs.take e).drop 1))
            else none
      else
        let host := cs.take i
        if (firstIdxOf host ':').isSome then none
        else if (firstIdxOf cs '[').isSome then none
        else if (firstIdxOf cs ']').isSome then none
        else some (String.mk host)

/-! ## The key parser (`blobNameSHA256`, `cacheItem`,
`cacheItemFromRequestPath`) -/

/-- What the regex fragment `/?(.*/)?` accepts: the part of the path in
front of the bucket must be empty or end in `/`, and (because `.` in Go's
regexp matches any character except a newline, and the optional leading
`/` is itself not a newline) contain no newline before that final `/`. -/
def prefOk (q : List Char) : Bool :=
  match q.getLast? with
  | none => true
  | some c => (c = '/' : Bool) && q.dropLast.all (fun x => !(x = '\n' : Bool))

/-- `blobNameSHA256.FindStringSubmatch` for the anchored pattern
`^/?(.*/)?(ac/|cas/)([a-f0-9]{64})$`: the hash capture is forced to be the
final 64 characters, the bucket capture the `ac/` or `cas/` directly in
front of it (the two cannot both fit), and the leading part must satisfy
`prefOk`. Returns the bucket and hash captures (`m[2]`, `m[3]`). -/
def blobNameSHA256 (cs : List Char) : Option (List Char × List Char) :=
  let n := cs.length
  if n < 67 then none
  else
    let hash := cs.drop (n - 64)
    let front := cs.take (n - 64)
    if hash.all isLowerHexChar then
      if front.drop (front.length - 4) = "cas/".data
          && prefOk (front.take (front.length - 4)) then
        some ("cas/".data, hash)
      else if front.drop (front.length - 3) = "ac/".data
          && prefOk (front.take (front.length - 3)) then
        some ("ac/".data, hash)
      else none
    else none

/-- Go struct `cacheItem`. -/
structure cacheItem where
  hash : String
  absFilePath : String
  verifyHash : Bool
  deriving Repr, DecidableEq

/-- Go `cacheItemFromRequestPath`: parses the cache item from the request
URL path. (The Go source's `len(parts) != 2` branch is dead code — on a
match the regexp always yields exactly the two captures — and has no
counterpart here.) -/
def cacheItemFromRequestPath (url : String) (baseDir : String) : Except String cacheItem :=
  match blobNameSHA256 url.data with
  | none =>
      Except.error ("Resource name must be a SHA256 hash in hex. Got '"
        ++ htmlEscapeString url ++ "'.")
  | some (bucket, hash) =>
      Except.ok
        { verifyHash := bucket = "cas/".data
          absFilePath := String.mk (goJoin [baseDir.data, bucket, hash])
          hash := String.mk hash }

/-! ## External collaborators and effect records -/

/-- Modelled from the spec: the external cache-index collaborator (spec
section 6) as consumed by `http.go` — `ContainsFile`, `CurrSize`,
`MaxSize`, `NumFiles` and `Dir` (`containsObject`, the accounting getters
and `rootDirectory`). Its implementation lives in another file of the
repository; only the operations the request layer calls are modelled, as
abstract data. -/
structure CacheIndex where
  containsFile : String → Bool
  currSize : Int
  maxSize : Int
  numFiles : Int
  dir : String

/-- Modelled from the spec: `registerObject` (`cache.AddFile`) makes
`containsObject` true for the registered path. Applies the `AddFile` call
recorded in a handler result (if any) to the index; the size accounting
of the external collaborator is not needed by any claim and is left
unchanged. -/
def addToIndex (c : CacheIndex) (a : Option (String × Int)) : CacheIndex :=
  match a with
  | none => c
  | some (p, _) => { c with containsFile := fun x => (x = p : Bool) || c.containsFile x }

/-- Outcomes of the fallible operating-system calls inside `saveToDisk`,
supplied as explicit inputs so that every failure path of the Go code is
a reachable branch: `ioutil.TempFile` (error or the random part of the
generated name), a read error from the request body after a prefix of the
content, `f.Sync()`, `os.Rename` and the cleanup `os.Remove`. -/
structure Faults where
  tempCreateErr : Option String
  tmpRand : String
  readErrAfter : Option (Nat × String)
  syncErr : Option String
  renameErr : Option String
  removeErr : Option String
  deriving Repr, DecidableEq

/-- The fault record of a run in which every operating-system call
succeeds. -/
def noFaults : Faults :=
  { tempCreateErr := none, tmpRand := "", readErrAfter := none
    syncErr := none, renameErr := none, removeErr := none }

deriving instance DecidableEq for Except

/-- What one call of `saveToDisk` did: its Go return value (`(written,
err)` as an `Except`), the directory handed to `ioutil.TempFile` (when a
temp file was created), the temp file's path and whether it was removed
again, whether the rename published the content at the destination,
whether the cleanup `os.Remove` of the destination ran and succeeded, the
`log` package lines it printed, and whether it reached `log.Fatal`
(which exits the process and never returns). -/
structure SaveOutcome where
  result : Except String Int
  tempDirArg : Option String
  tempPath : Option String
  tempRemoved : Bool
  renamed : Bool
  finalRemoved : Bool
  stdLog : List String
  fatal : Bool
  deriving Repr, DecidableEq

/-- Go `(*httpCache).saveToDisk`: create a temp file in `h.cache.Dir()`,
stream the body into it (through a SHA-256 accumulator when
`info.verifyHash`), reject a digest mismatch (removing the temp file),
return any copy error, `log.Fatal` on a `Sync` failure, and publish the
temp file with `os.Rename`, cleaning up the destination (best effort,
failure only logged) when the rename fails. -/
def saveToDisk (baseDir : String) (info : cacheItem) (body : List Nat)
    (f : Faults) : SaveOutcome :=
  match f.tempCreateErr with
  | some e =>
      { result := Except.error e, tempDirArg := none, tempPath := none
        tempRemoved := false, renamed := false, finalRemoved := false
        stdLog := [], fatal := false }
  | none =>
      let tmpName := baseDir ++ "/upload" ++ f.tmpRand
      let copied := match f.readErrAfter with
        | some (k, _) => body.take k
        | none => body
      let copyErr : Option String := f.readErrAfter.map Prod.snd
      let mismatch : Option String :=
        if info.verifyHash then
          let actualHash := sha256hex copied
          if info.hash ≠ actualHash then
            some ("Hashes don't match. Provided '" ++ info.hash
              ++ "', Actual '" ++ htmlEscapeString actualHash ++ "'.")
          else none
        else none
      match mismatch with
      | some msg =>
          { result := Except.error msg, tempDirArg := some baseDir
            tempPath := some tmpName, tempRemoved := true, renamed := false
            finalRemoved := false, stdLog := [], fatal := false }
      | none =>
          match copyErr with
          | some e =>
              { result := Except.error e, tempDirArg := some baseDir
                tempPath := some tmpName, tempRemoved := false
                renamed := false, finalRemoved := false, stdLog := []
                fatal := false }
          | none =>
              match f.syncErr with
              | some e =>
                  { result := Except.error e, tempDirArg := some baseDir
                    tempPath := some tmpName, tempRemoved := false
                    renamed := false, finalRemoved := false, stdLog := []
                    fatal := true }
              | none =>
                  match f.renameErr with
                  | some e2 =>
                      let renameLog := "Failed renaming " ++ tmpName
                        ++ " to its final destination " ++ info.absFilePath
                        ++ ": " ++ e2
                      match f.removeErr with
                      | some re =>
                          { result := Except.error e2
                            tempDirArg := some baseDir
                            tempPath := some tmpName, tempRemoved := false
                            renamed := false, finalRemoved := false
                            stdLog := [renameLog,
                              "Failed cleaning up " ++ tmpName
                              ++ " after a failure to rename it to its final destination: "
                              ++ re]
                            fatal := false }
                      | none =>
                          { result := Except.error e2
                            tempDirArg := some baseDir
                            tempPath := some tmpName, tempRemoved := false
                            renamed := false, finalRemoved := true
                            stdLog := [renameLog], fatal := false }
                  | none =>
                      { result := Except.ok (Int.ofNat copied.length)
                        tempDirArg := some baseDir, tempPath := some tmpName
                        tempRemoved := false, renamed := true
                        finalRemoved := false, stdLog := [], fatal := false }

/-! ## The request dispatcher (`CacheHandler`) -/

/-- An HTTP request as `CacheHandler` consumes it: method, URL path,
remote address, declared `Content-Length` and the body bytes. -/
structure Request where
  method : String
  urlPath : String
  remoteAddr : String
  contentLength : Int
  body : List Nat

/-- What one call of `CacheHandler` did: the HTTP response it wrote
(status and body; `none` if the goroutine panicked or the process exited
before writing one), the file handed to `http.ServeFile` on a GET hit,
the access-log and error-log lines, whether the request body was drained
by `discardUpload`, the `saveToDisk` call (if any) and its effects, the
`cache.AddFile` registration (if any), whether an upload lock was
registered (`startUpload`), released and deregistered (`stopUpload`),
whether the goroutine panicked (a method call on a nil `error`), and
whether the process exited (`log.Fatal` inside `saveToDisk`). -/
structure HandlerResult where
  response : Option (Nat × String)
  served : Option String
  accessLog : List String
  errorLog : List String
  drained : Bool
  saved : Option SaveOutcome
  added : Option (String × Int)
  lockStarted : Bool
  lockReleased : Bool
  deregistered : Bool
  panicked : Bool
  fatal : Bool
  deriving Repr, DecidableEq

/-- A `HandlerResult` in which nothing has happened yet. -/
def emptyResult : HandlerResult :=
  { response := none, served := none, accessLog := [], errorLog := []
    drained := false, saved := none, added := none, lockStarted := false
    lockReleased := false, deregistered := false, panicked := false
    fatal := false }

/-- The `logResponse` closure inside `CacheHandler`: one access-log line
`"%4s %d %15s %s"` from the method, status code, client address (host
part of `RemoteAddr`, or the raw address when `net.SplitHostPort`
fails) and URL path. -/
def logResponseLine (r : Request) (code : Nat) : String :=
  let clientAddress := match splitHostPort r.remoteAddr with
    | some h => h
    | none => r.remoteAddr
  padLeft 4 r.method ++ " " ++ toString code ++ " "
    ++ padLeft 15 clientAddress ++ " " ++ r.urlPath

/-- Go `(*httpCache).CacheHandler`, with the space-ensurer passed as the
abstract function `ensureSpace` (modelled from the spec: `reserveSpace`
returns whether the requested bytes fit, spec section 6). The sequential
model calls `cache.containsFile` for both the fast existence check and
the re-check under the upload lock, so the re-check branch repeats the
first check's value. The HEAD branch for a missing file reproduces the
source's `http.Error(w, err.Error(), http.StatusNotFound)` on the `err`
that is necessarily `nil` at that point: evaluating `err.Error()`
panics before anything is written or logged. A `log.Fatal` inside
`saveToDisk` exits the process: the deferred unlock and `stopUpload` do
not run and no response is written. -/
def CacheHandler (cache : CacheIndex) (ensureSpace : CacheIndex → Int → Bool)
    (f : Faults) (r : Request) : HandlerResult :=
  match cacheItemFromRequestPath r.urlPath cache.dir with
  | Except.error e =>
      { emptyResult with
          response := some (400, e ++ "\n")
          accessLog := [logResponseLine r 400] }
  | Except.ok item =>
      if r.method = "GET" then
        if cache.containsFile item.absFilePath = false then
          { emptyResult with
              response := some (404, "")
              accessLog := [logResponseLine r 404] }
        else
          { emptyResult with
              response := some (200, "")
              served := some item.absFilePath
              accessLog := [logResponseLine r 200] }
      else if r.method = "PUT" then
        if cache.containsFile item.absFilePath then
          { emptyResult with
              response := some (200, ""), drained := true
              accessLog := [logResponseLine r 200] }
        else
          -- startUpload / uploadMux.Lock(), with deferred stopUpload and
          -- Unlock on every return below (but not past log.Fatal).
          if cache.containsFile item.absFilePath then
            { emptyResult with
                response := some (200, ""), drained := true
                accessLog := [logResponseLine r 200]
                lockStarted := true, lockReleased := true
                deregistered := true }
          else if ensureSpace cache r.contentLength = false then
            { emptyResult with
                response := some (507, "The disk is full. File could not be uploaded.\n")
                errorLog := ["The disk is full (" ++ toString cache.currSize
                  ++ "/" ++ toString cache.maxSize ++ " bytes used)"]
                lockStarted := true, lockReleased := true
                deregistered := true }
          else
            let so := saveToDisk cache.dir item r.body f
            if so.fatal then
              { emptyResult with
                  saved := some so, fatal := true
                  lockStarted := true, lockReleased := false
                  deregistered := false }
            else
              match so.result with
              | Except.error e =>
                  { emptyResult with
                      response := some (500, e ++ "\n")
                      errorLog := ["Error saving file: " ++ e]
                      saved := some so
                      lockStarted := true, lockReleased := true
                      deregistered := true }
              | Except.ok written =>
                  { emptyResult with
                      response := some (200, "")
                      accessLog := [logResponseLine r 200]
                      saved := some so
                      added := some (item.absFilePath, written)
                      lockStarted := true, lockReleased := true
                      deregistered := true }
      else if r.method = "HEAD" then
        if cache.containsFile item.absFilePath = false then
          { emptyResult with panicked := true }
        else
          { emptyResult with
              response := some (200, "")
              accessLog := [logResponseLine r 200] }
      else
        { emptyResult with
            response := some (405, "Method '" ++ htmlEscapeString r.method
              ++ "' not supported.\n")
            accessLog := [logResponseLine r 405] }
/-! ## Concrete fixtures used by the closed theorems and witnesses -/

/-- A 64-character lowercase hex key: 64 copies of `a`. -/
def hashA : String := String.mk (List.replicate 64 'a')

/-- A cache-index that reports every path absent. -/
def idxEmpty : CacheIndex :=
  { containsFile := fun _ => false, currSize := 0, maxSize := 100
    numFiles := 0, dir := "/cache" }

/-- A space-ensurer that always grants the reservation. -/
def esAlways : CacheIndex → Int → Bool := fun _ _ => true

/-- A space-ensurer that always refuses the reservation. -/
def esNever : CacheIndex → Int → Bool := fun _ _ => false

/-- A fault record in which only `f.Sync()` fails. -/
def syncFaults : Faults :=
  { noFaults with syncErr := some "sync device error" }

/-- A fault record in which the rename and the cleanup removal fail. -/
def renameFaults : Faults :=
  { noFaults with renameErr := some "rename: device busy"
                  removeErr := some "remove: permission denied" }

/-- A request path whose prefix segment contains a newline character. -/
def urlNL : String := "a\nb/cas/" ++ hashA

/-! ## Lemmas about path segmentation -/

theorem splitSeg_ne_nil (cs : List Char) : splitSeg cs ≠ [] := by
  induction cs with
  | nil => simp [splitSeg]
  | cons c cs ih =>
      by_cases h : c = '/'
      · simp [splitSeg, h]
      · simp only [splitSeg, if_neg h]
        cases hs : splitSeg cs <;> simp

theorem splitSeg_cons_ne (c : Char) (cs : List Char) (h : c ≠ '/')
    (s : List Char) (rest : List (List Char)) (hs : splitSeg cs = s :: rest) :
    splitSeg (c :: cs) = (c :: s) :: rest := by
  simp [splitSeg, if_neg h, hs]

theorem splitSeg_append_slash (a b : List Char) :
    splitSeg (a ++ '/' :: b) = splitSeg a ++ splitSeg b := by
  induction a with
  | nil => simp [splitSeg]
  | cons c cs ih =>
      by_cases h : c = '/'
      · simp [splitSeg, h, ih]
      · have hne := splitSeg_ne_nil cs
        cases hs : splitSeg cs with
        | nil => exact absurd hs hne
        | cons s rest =>
            have e1 : splitSeg (cs ++ '/' :: b) = s :: (rest ++ splitSeg b) := by
              rw [ih, hs]; simp
            calc splitSeg ((c :: cs) ++ '/' :: b)
                = splitSeg (c :: (cs ++ '/' :: b)) := by simp
              _ = (c :: s) :: (rest ++ splitSeg b) := splitSeg_cons_ne c _ h _ _ e1
              _ = ((c :: s) :: rest) ++ splitSeg b := by simp
              _ = splitSeg (c :: cs) ++ splitSeg b := by
                    rw [splitSeg_cons_ne c cs h s rest hs]

theorem splitSeg_no_slash (cs : List Char) (h : ∀ c ∈ cs, c ≠ '/') :
    splitSeg cs = [cs] := by
  induction cs with
  | nil => rfl
  | cons c cs ih =>
      have hc : c ≠ '/' := h c (by simp)
      have ih' := ih (fun x hx => h x (by simp [hx]))
      simp [splitSeg, hc, ih']

theorem interSlash_append (xs ys : List (List Char)) (hx : xs ≠ []) (hy : ys ≠ []) :
    interSlash (xs ++ ys) = interSlash xs ++ '/' :: interSlash ys := by
  induction xs with
  | nil => exact absurd rfl hx
  | cons s xs ih =>
      cases xs with
      | nil =>
          cases ys with
          | nil => exact absurd rfl hy
          | cons y ys => simp [interSlash]
      | cons t xs' =>
          have ih' := ih (by simp)
          have hstep : interSlash ((s :: t :: xs') ++ ys)
              = s ++ '/' :: interSlash ((t :: xs') ++ ys) := rfl
          have hstep2 : interSlash (s :: t :: xs')
              = s ++ '/' :: interSlash (t :: xs') := rfl
          rw [hstep, hstep2, ih']
          simp

theorem splitSeg_interSlash (segs : List (List Char)) (hne : segs ≠ [])
    (h : ∀ s ∈ segs, ∀ c ∈ s, c ≠ '/') : splitSeg (interSlash segs) = segs := by
  induction segs with
  | nil => exact absurd rfl hne
  | cons s segs ih =>
      cases segs with
      | nil => simpa [interSlash] using splitSeg_no_slash s (h s (by simp))
      | cons t rest =>
          have ih' := ih (by simp) (fun x hx c hc => h x (by simp [hx]) c hc)
          have hstep : interSlash (s :: t :: rest) = s ++ '/' :: interSlash (t :: rest) := rfl
          rw [hstep, splitSeg_append_slash, splitSeg_no_slash s (h s (by simp)), ih']
          rfl

theorem resolveDots_no_dotdot (rooted : Bool) (acc segs : List (List Char))
    (h : ∀ s ∈ segs, s ≠ ['.', '.']) :
    resolveDots rooted acc segs = acc.reverse ++ segs := by
  induction segs generalizing acc with
  | nil => simp [resolveDots]
  | cons s rest ih =>
      have hs : s ≠ ['.', '.'] := h s (by simp)
      have ih' := ih (s :: acc) (fun x hx => h x (by simp [hx]))
      simp only [resolveDots, if_neg hs, ih']
      simp

/-! ## Key lemmas about `goJoin` on a clean rooted base directory -/

theorem keepSeg_true (s : List Char) (h0 : s ≠ []) (h1 : s ≠ ['.']) :
    keepSeg s = true := by
  simp [keepSeg, h0, h1]

theorem isLowerHexChar_ne (c : Char) (h : isLowerHexChar c = true) :
    c ≠ '/' ∧ c ≠ '.' ∧ c ≠ '\n' := by
  refine ⟨?_, ?_, ?_⟩ <;> intro he <;> subst he <;> revert h <;> decide

theorem goJoin_cons_ne (e : List Char) (he : e ≠ []) (rest : List (List Char)) :
    goJoin (e :: rest) = goClean (interSlash (e :: rest)) := by
  unfold goJoin
  rw [List.dropWhile_cons]
  simp [he]

theorem goJoin_rooted (bsegs : List (List Char)) (bseg hash : List Char)
    (hne : bsegs ≠ [])
    (hseg : ∀ s ∈ bsegs, s ≠ [] ∧ s ≠ ['.'] ∧ s ≠ ['.', '.'] ∧ ∀ c ∈ s, c ≠ '/')
    (hb : bseg = ['a', 'c'] ∨ bseg = ['c', 'a', 's'])
    (hh0 : hash ≠ []) (hh1 : hash ≠ ['.']) (hh2 : hash ≠ ['.', '.'])
    (hhs : ∀ c ∈ hash, c ≠ '/') :
    goJoin ['/' :: interSlash bsegs, bseg ++ ['/'], hash]
      = ('/' :: interSlash bsegs) ++ '/' :: (bseg ++ '/' :: hash) := by
  have hbne : bseg ≠ [] := by rcases hb with hb | hb <;> simp [hb]
  have hbdot : bseg ≠ ['.'] := by rcases hb with hb | hb <;> simp [hb]
  have hbdd : bseg ≠ ['.', '.'] := by rcases hb with hb | hb <;> simp [hb]
  have hbs : ∀ c ∈ bseg, c ≠ '/' := by
    rcases hb with hb | hb <;> subst hb <;> decide
  rw [goJoin_cons_ne _ (by simp) _]
  have hIS : interSlash ['/' :: interSlash bsegs, bseg ++ ['/'], hash]
      = ('/' :: interSlash bsegs) ++ '/' :: ((bseg ++ ['/']) ++ '/' :: hash) := rfl
  rw [hIS]
  -- Segment the raw joined path.
  have hsp0 : splitSeg (bseg ++ ['/']) = [bseg] ++ [([] : List Char)] := by
    have : bseg ++ ['/'] = bseg ++ '/' :: ([] : List Char) := rfl
    rw [this, splitSeg_append_slash, splitSeg_no_slash bseg hbs]
    rfl
  have hsp1 : splitSeg ((bseg ++ ['/']) ++ '/' :: hash)
      = [bseg] ++ [([] : List Char)] ++ [hash] := by
    rw [splitSeg_append_slash, hsp0, splitSeg_no_slash hash hhs]
  have hsp2 : splitSeg (('/' :: interSlash bsegs) ++ '/' :: ((bseg ++ ['/']) ++ '/' :: hash))
      = ([] : List Char) :: (bsegs ++ ([bseg] ++ [([] : List Char)] ++ [hash])) := by
    have e0 : ('/' :: interSlash bsegs) ++ '/' :: ((bseg ++ ['/']) ++ '/' :: hash)
        = '/' :: (interSlash bsegs ++ '/' :: ((bseg ++ ['/']) ++ '/' :: hash)) := rfl
    rw [e0]
    have e1 : splitSeg ('/' :: (interSlash bsegs ++ '/' :: ((bseg ++ ['/']) ++ '/' :: hash)))
        = [] :: splitSeg (interSlash bsegs ++ '/' :: ((bseg ++ ['/']) ++ '/' :: hash)) := by
      simp [splitSeg]
    rw [e1, splitSeg_append_slash,
        splitSeg_interSlash bsegs hne (fun s hs c hc => (hseg s hs).2.2.2 c hc), hsp1]
  -- Filter the segments.
  have hfilter : List.filter keepSeg
        (([] : List Char) :: (bsegs ++ ([bseg] ++ [([] : List Char)] ++ [hash])))
      = bsegs ++ [bseg, hash] := by
    have hk : keepSeg ([] : List Char) = false := by decide
    have hbsegs : bsegs.filter keepSeg = bsegs :=
      List.filter_eq_self.mpr (fun s hs => keepSeg_true s (hseg s hs).1 (hseg s hs).2.1)
    simp [List.filter_append, hk, hbsegs, keepSeg_true bseg hbne hbdot,
      keepSeg_true hash hh0 hh1, List.filter]
  -- Resolve the dots (there are none).
  have hresolve : ∀ b : Bool, resolveDots b [] (bsegs ++ [bseg, hash]) = bsegs ++ [bseg, hash] := by
    intro b
    refine resolveDots_no_dotdot b [] (bsegs ++ [bseg, hash]) (fun s hs => ?_)
    rcases List.mem_append.mp hs with hm1 | hm1
    · exact (hseg s hm1).2.2.1
    · simp only [List.mem_cons, List.mem_singleton] at hm1
      rcases hm1 with h1 | h1 | h1
      · simpa [h1] using hbdd
      · simpa [h1] using hh2
      · exact absurd h1 (by simp)
  -- The head of the joined path is a slash.
  have hhead : (('/' :: interSlash bsegs) ++ '/' :: ((bseg ++ ['/']) ++ '/' :: hash)).head?
      = some '/' := rfl
  have hinter : interSlash (bsegs ++ [bseg, hash])
      = interSlash bsegs ++ '/' :: (bseg ++ '/' :: hash) := by
    rw [interSlash_append bsegs [bseg, hash] hne (by simp)]
    rfl
  simp only [goClean, hhead, hsp2, hfilter, hresolve]
  simp [hinter]

/-! ## Characterization of the blob-name matcher -/

/-- The shape accepted by the code's regular expression: an optional
prefix (empty, or newline-free up to a final `/`), the bucket, and 64
lowercase hex characters. -/
def codeKeyShape (cs : List Char) : Prop :=
  ∃ q bucket hash, cs = q ++ bucket ++ hash ∧
    (bucket = "ac/".data ∨ bucket = "cas/".data) ∧
    hash.length = 64 ∧ (∀ c ∈ hash, isLowerHexChar c = true) ∧
    (q = [] ∨ (q.getLast? = some '/' ∧ ∀ c ∈ q.dropLast, c ≠ '\n'))

/-- The shape asserted by the specification sentence: *arbitrary* optional
prefix segments (no restriction on their characters), the bucket, and 64
lowercase hex characters. -/
def specKeyShape (cs : List Char) : Prop :=
  ∃ q bucket hash, cs = q ++ bucket ++ hash ∧
    (bucket = "ac/".data ∨ bucket = "cas/".data) ∧
    hash.length = 64 ∧ (∀ c ∈ hash, isLowerHexChar c = true) ∧
    (q = [] ∨ q.getLast? = some '/')

theorem prefOk_iff (q : List Char) :
    prefOk q = true ↔ (q = [] ∨ (q.getLast? = some '/' ∧ ∀ c ∈ q.dropLast, c ≠ '\n')) := by
  unfold prefOk
  rcases List.eq_nil_or_concat q with hq | ⟨q', c, hq⟩
  · simp [hq]
  · subst hq
    simp only [List.concat_eq_append, List.getLast?_concat, List.dropLast_concat]
    constructor
    · intro h
      refine Or.inr ?_
      have h1 := (Bool.and_eq_true _ _).mp h
      constructor
      · simp only [decide_eq_true_eq] at h1
        simp [h1.1]
      · intro x hx
        have h2 := List.all_eq_true.mp h1.2 x (by simpa using hx)
        simpa using h2
    · intro h
      rcases h with h | ⟨h1, h2⟩
      · exact absurd h (by simp)
      · refine (Bool.and_eq_true _ _).mpr ⟨?_, ?_⟩
        · simp only [Option.some.injEq] at h1
          simp [h1]
        · refine List.all_eq_true.mpr (fun x hx => ?_)
          have := h2 x (by simpa using hx)
          simpa using this

theorem blobNameSHA256_some (cs b h : List Char)
    (hm : blobNameSHA256 cs = some (b, h)) :
    ∃ q, cs = q ++ b ++ h ∧ (b = "ac/".data ∨ b = "cas/".data) ∧
      h.length = 64 ∧ (∀ c ∈ h, isLowerHexChar c = true) ∧ prefOk q = true := by
  simp only [blobNameSHA256] at hm
  split at hm
  · simp at hm
  next h67 =>
    split at hm
    next hhexb =>
      have h64 : (cs.drop (cs.length - 64)).length = 64 := by
        rw [List.length_drop]; omega
      split at hm
      next hcas =>
        obtain ⟨hcond, hpre⟩ := Bool.and_eq_true_iff.mp hcas
        rw [decide_eq_true_eq] at hcond
        simp only [Option.some.injEq, Prod.mk.injEq] at hm
        obtain ⟨hb, hh⟩ := hm
        refine ⟨(cs.take (cs.length - 64)).take ((cs.take (cs.length - 64)).length - 4),
          ?_, Or.inr hb.symm, ?_, ?_, ?_⟩
        · rw [← hb, ← hh, ← hcond,
            List.take_append_drop ((List.take (cs.length - 64) cs).length - 4)
              (List.take (cs.length - 64) cs),
            List.take_append_drop (cs.length - 64) cs]
        · rw [← hh]; exact h64
        · intro c hc
          rw [← hh] at hc
          exact List.all_eq_true.mp hhexb c hc
        · exact hpre
      next hcas =>
        split at hm
        next hac =>
          obtain ⟨hcond, hpre⟩ := Bool.and_eq_true_iff.mp hac
          rw [decide_eq_true_eq] at hcond
          simp only [Option.some.injEq, Prod.mk.injEq] at hm
          obtain ⟨hb, hh⟩ := hm
          refine ⟨(cs.take (cs.length - 64)).take ((cs.take (cs.length - 64)).length - 3),
            ?_, Or.inl hb.symm, ?_, ?_, ?_⟩
          · rw [← hb, ← hh, ← hcond,
              List.take_append_drop ((List.take (cs.length - 64) cs).length - 3)
                (List.take (cs.length - 64) cs),
              List.take_append_drop (cs.length - 64) cs]
          · rw [← hh]; exact h64
          · intro c hc
            rw [← hh] at hc
            exact List.all_eq_true.mp hhexb c hc
          · exact hpre
        next => simp at hm
    next => simp at hm

theorem blobNameSHA256_cas (q h : List Char)
    (hlen : h.length = 64) (hhex : ∀ c ∈ h, isLowerHexChar c = true)
    (hq : prefOk q = true) :
    blobNameSHA256 ((q ++ "cas/".data) ++ h) = some ("cas/".data, h) := by
  have hql : "cas/".data.length = 4 := by decide
  have hcs : ((q ++ "cas/".data) ++ h).length = q.length + 4 + 64 := by
    simp [List.length_append, hlen]
  have hsub : ((q ++ "cas/".data) ++ h).length - 64 = (q ++ "cas/".data).length := by
    simp [List.length_append, hlen, hcs]
  simp only [blobNameSHA256]
  rw [if_neg (by omega : ¬(((q ++ "cas/".data) ++ h).length < 67))]
  rw [hsub, List.drop_left, List.take_left]
  rw [if_pos (List.all_eq_true.mpr hhex)]
  have hfl : (q ++ "cas/".data).length - 4 = q.length := by
    simp [List.length_append]
  rw [hfl]
  have hfdrop : (q ++ "cas/".data).drop q.length = "cas/".data := List.drop_left q _
  have hftake : (q ++ "cas/".data).take q.length = q := List.take_left q _
  rw [hfdrop, hftake]
  simp [hq]

theorem blobNameSHA256_ac (q h : List Char)
    (hlen : h.length = 64) (hhex : ∀ c ∈ h, isLowerHexChar c = true)
    (hq : prefOk q = true) :
    blobNameSHA256 ((q ++ "ac/".data) ++ h) = some ("ac/".data, h) := by
  have hcs : ((q ++ "ac/".data) ++ h).length = q.length + 3 + 64 := by
    simp [List.length_append, hlen]
  have hsub : ((q ++ "ac/".data) ++ h).length - 64 = (q ++ "ac/".data).length := by
    simp [List.length_append, hlen, hcs]
  simp only [blobNameSHA256]
  rw [if_neg (by omega : ¬(((q ++ "ac/".data) ++ h).length < 67))]
  rw [hsub, List.drop_left, List.take_left]
  rw [if_pos (List.all_eq_true.mpr hhex)]
  have hfl3 : (q ++ "ac/".data).length - 3 = q.length := by
    simp [List.length_append]
  have hfdrop : (q ++ "ac/".data).drop q.length = "ac/".data := List.drop_left q _
  have hftake : (q ++ "ac/".data).take q.length = q := List.take_left q _
  -- The `cas/` branch condition is false: the four characters in front of
  -- the hash end in `c/`, never in `s/`.
  have hcasfalse : ¬((q ++ "ac/".data).drop ((q ++ "ac/".data).length - 4) = "cas/".data) := by
    rcases List.eq_nil_or_concat q with hq0 | ⟨q', c, hq0⟩
    · subst hq0; decide
    · subst hq0
      have hc : c = '/' := by
        rw [prefOk_iff] at hq
        rcases hq with hq | ⟨hq1, _⟩
        · exact absurd hq (by simp)
        · rw [List.concat_eq_append, List.getLast?_concat] at hq1
          exact (Option.some.injEq _ _ ▸ hq1).symm ▸ rfl
      subst hc
      have he : (q'.concat '/' ++ "ac/".data) = q' ++ ('/' :: "ac/".data) := by
        simp [List.concat_eq_append]
      have hel : (q'.concat '/' ++ "ac/".data).length - 4 = q'.length := by
        simp [List.concat_eq_append, List.length_append]
      rw [hel, he, List.drop_left q' ('/' :: "ac/".data)]
      decide
  split
  next hcasb =>
    exfalso
    obtain ⟨hcond, _⟩ := Bool.and_eq_true_iff.mp hcasb
    rw [decide_eq_true_eq] at hcond
    exact hcasfalse hcond
  next hcasb =>
    rw [hfl3, hfdrop, hftake]
    simp [hq]

/-! ## Characterization of the key parser -/

theorem cacheItemFromRequestPath_ok_shape (url baseDir : String) (item : cacheItem)
    (hp : cacheItemFromRequestPath url baseDir = Except.ok item) :
    ∃ b h, blobNameSHA256 url.data = some (b, h) ∧
      item.hash = String.mk h ∧
      item.absFilePath = String.mk (goJoin [baseDir.data, b, h]) ∧
      item.verifyHash = decide (b = "cas/".data) := by
  unfold cacheItemFromRequestPath at hp
  cases hm : blobNameSHA256 url.data with
  | none => rw [hm] at hp; cases hp
  | some bh =>
      obtain ⟨b, h⟩ := bh
      rw [hm] at hp
      injection hp with hp
      subst hp
      exact ⟨b, h, rfl, rfl, rfl, rfl⟩

theorem cacheItemFromRequestPath_isOk_iff (url baseDir : String) :
    (cacheItemFromRequestPath url baseDir).isOk = true ↔ codeKeyShape url.data := by
  constructor
  · intro hok
    cases hm : blobNameSHA256 url.data with
    | none =>
        unfold cacheItemFromRequestPath at hok
        rw [hm] at hok
        simp [Except.isOk, Except.toBool] at hok
    | some bh =>
        obtain ⟨b, h⟩ := bh
        obtain ⟨q, hcs, hb, hlen, hhex, hpre⟩ := blobNameSHA256_some url.data b h hm
        exact ⟨q, b, h, hcs, hb, hlen, hhex, (prefOk_iff q).mp hpre⟩
  · rintro ⟨q, b, h, hcs, hb, hlen, hhex, hpre⟩
    have hpre' : prefOk q = true := (prefOk_iff q).mpr hpre
    unfold cacheItemFromRequestPath
    rcases hb with hb | hb <;> subst hb <;> rw [hcs]
    · rw [blobNameSHA256_ac q h hlen hhex hpre']
      rfl
    · rw [blobNameSHA256_cas q h hlen hhex hpre']
      rfl

theorem cacheItemFromRequestPath_error (url baseDir : String)
    (hshape : ¬ codeKeyShape url.data) :
    cacheItemFromRequestPath url baseDir = Except.error
      ("Resource name must be a SHA256 hash in hex. Got '"
        ++ htmlEscapeString url ++ "'.") := by
  cases hm : blobNameSHA256 url.data with
  | none =>
      unfold cacheItemFromRequestPath
      rw [hm]
  | some bh =>
      exfalso
      obtain ⟨b, h⟩ := bh
      obtain ⟨q, hcs, hb, hlen, hhex, hpre⟩ := blobNameSHA256_some url.data b h hm
      exact hshape ⟨q, b, h, hcs, hb, hlen, hhex, (prefOk_iff q).mp hpre⟩

theorem cacheItemFromRequestPath_cas (url baseDir : String) (q h : List Char)
    (hurl : url.data = (q ++ "cas/".data) ++ h) (hlen : h.length = 64)
    (hhex : ∀ c ∈ h, isLowerHexChar c = true) (hpre : prefOk q = true) :
    cacheItemFromRequestPath url baseDir = Except.ok
      { hash := String.mk h
        absFilePath := String.mk (goJoin [baseDir.data, "cas/".data, h])
        verifyHash := true } := by
  unfold cacheItemFromRequestPath
  rw [hurl, blobNameSHA256_cas q h hlen hhex hpre]
  rfl

theorem cacheItemFromRequestPath_ac (url baseDir : String) (q h : List Char)
    (hurl : url.data = (q ++ "ac/".data) ++ h) (hlen : h.length = 64)
    (hhex : ∀ c ∈ h, isLowerHexChar c = true) (hpre : prefOk q = true) :
    cacheItemFromRequestPath url baseDir = Except.ok
      { hash := String.mk h
        absFilePath := String.mk (goJoin [baseDir.data, "ac/".data, h])
        verifyHash := false } := by
  unfold cacheItemFromRequestPath
  rw [hurl, blobNameSHA256_ac q h hlen hhex hpre]
  rfl

/-! ## Helper lemmas about `saveToDisk` and the handler -/

theorem saveToDisk_not_fatal (d : String) (i : cacheItem) (b : List Nat) (f : Faults)
    (h : f.syncErr = none) : (saveToDisk d i b f).fatal = false := by
  unfold saveToDisk
  simp only [h]
  repeat' split
  all_goals rfl

/-- C3 (amended): with a working `f.Sync()`, no PUT failure path is fatal
to the process or panics; every PUT outcome carries an HTTP response, and
whenever the upload lock was registered it is released and deregistered
again. -/
theorem c3_put_failure_paths_respond (cache : CacheIndex)
    (es : CacheIndex → Int → Bool) (f : Faults) (r : Request)
    (hsync : f.syncErr = none) (hm : r.method = "PUT") :
    (CacheHandler cache es f r).fatal = false ∧
    (CacheHandler cache es f r).panicked = false ∧
    ((CacheHandler cache es f r).response).isSome = true ∧
    ((CacheHandler cache es f r).lockStarted = true →
      (CacheHandler cache es f r).lockReleased = true ∧
      (CacheHandler cache es f r).deregistered = true) := by
  cases hq : cacheItemFromRequestPath r.urlPath cache.dir with
  | error e =>
      simp [CacheHandler, hq, emptyResult]
  | ok item =>
      simp only [CacheHandler, hq, hm]
      rw [if_pos trivial]
      by_cases hc1 : cache.containsFile item.absFilePath = true
      · rw [if_pos hc1]
        simp [emptyResult]
      · rw [if_neg hc1, if_neg hc1]
        by_cases hes : es cache r.contentLength = false
        · rw [if_pos hes]
          simp [emptyResult]
        · rw [if_neg hes]
          have hnf := saveToDisk_not_fatal cache.dir item r.body f hsync
          rw [if_neg (by simp [hnf] : ¬((saveToDisk cache.dir item r.body f).fatal = true))]
          cases hres : (saveToDisk cache.dir item r.body f).result with
          | error e => simp [hres, emptyResult]
          | ok w => simp [hres, emptyResult]

/-- C3 (counterexample): a PUT whose temp-file `Sync` fails reaches
`log.Fatal`: the process exits, no HTTP response is written, and the
upload lock is neither released nor deregistered. -/
theorem c3_sync_failure_is_fatal :
    (CacheHandler idxEmpty esAlways syncFaults
      { method := "PUT", urlPath := "/ac/" ++ hashA, remoteAddr := "1.2.3.4:5678"
        contentLength := 1, body := [7] }).fatal = true ∧
    (CacheHandler idxEmpty esAlways syncFaults
      { method := "PUT", urlPath := "/ac/" ++ hashA, remoteAddr := "1.2.3.4:5678"
        contentLength := 1, body := [7] }).response = none ∧
    (CacheHandler idxEmpty esAlways syncFaults
      { method := "PUT", urlPath := "/ac/" ++ hashA, remoteAddr := "1.2.3.4:5678"
        contentLength := 1, body := [7] }).lockStarted = true ∧
    (CacheHandler idxEmpty esAlways syncFaults
      { method := "PUT", urlPath := "/ac/" ++ hashA, remoteAddr := "1.2.3.4:5678"
        contentLength := 1, body := [7] }).lockReleased = false ∧
    (CacheHandler idxEmpty esAlways syncFaults
      { method := "PUT", urlPath := "/ac/" ++ hashA, remoteAddr := "1.2.3.4:5678"
        contentLength := 1, body := [7] }).deregistered = false := by
  decide

/-- C2: on a HEAD request for a well-formed key that the cache-index
reports absent, the source evaluates `err.Error()` on the necessarily-nil
`err` before `http.Error` can write anything: the handler panics, writes
no response (neither the claimed 404 nor a 200) and logs nothing. -/
theorem c2_head_missing_panics :
    (CacheHandler idxEmpty esAlways noFaults
      { method := "HEAD", urlPath := "/ac/" ++ hashA, remoteAddr := "1.2.3.4:5678"
        contentLength := 0, body := [] }).panicked = true ∧
    (CacheHandler idxEmpty esAlways noFaults
      { method := "HEAD", urlPath := "/ac/" ++ hashA, remoteAddr := "1.2.3.4:5678"
        contentLength := 0, body := [] }).response = none ∧
    (CacheHandler idxEmpty esAlways noFaults
      { method := "HEAD", urlPath := "/ac/" ++ hashA, remoteAddr := "1.2.3.4:5678"
        contentLength := 0, body := [] }).accessLog = [] := by
  decide

/-- C5: a PUT refused by the space-ensurer responds 507 but returns before
`logResponse` runs: the access log receives no line for the request (only
the error log is written), contradicting the documented one-line-per-
request behavior of the access logger. -/
theorem c5_507_writes_no_access_log :
    (CacheHandler idxEmpty esNever noFaults
      { method := "PUT", urlPath := "/cas/" ++ hashA, remoteAddr := "1.2.3.4:5678"
        contentLength := 5, body := [] }).response
      = some (507, "The disk is full. File could not be uploaded.\n") ∧
    (CacheHandler idxEmpty esNever noFaults
      { method := "PUT", urlPath := "/cas/" ++ hashA, remoteAddr := "1.2.3.4:5678"
        contentLength := 5, body := [] }).accessLog = [] ∧
    (CacheHandler idxEmpty esNever noFaults
      { method := "PUT", urlPath := "/cas/" ++ hashA, remoteAddr := "1.2.3.4:5678"
        contentLength := 5, body := [] }).errorLog
      = ["The disk is full (0/100 bytes used)"] := by
  decide

/-- C8: a PUT whose space reservation is refused responds 507, logs the
current and maximum cache size to the error log, releases and deregisters
the per-key upload lock, never invokes the writer (no temp file, no final
file) and does not register anything with the cache-index. -/
theorem c8_ensure_space_refusal (cache : CacheIndex)
    (es : CacheIndex → Int → Bool) (f : Faults) (r : Request) (item : cacheItem)
    (hp : cacheItemFromRequestPath r.urlPath cache.dir = Except.ok item)
    (hm : r.method = "PUT")
    (hc : cache.containsFile item.absFilePath = false)
    (hs : es cache r.contentLength = false) :
    (CacheHandler cache es f r).response
      = some (507, "The disk is full. File could not be uploaded.\n") ∧
    (CacheHandler cache es f r).errorLog
      = ["The disk is full (" ++ toString cache.currSize ++ "/"
          ++ toString cache.maxSize ++ " bytes used)"] ∧
    (CacheHandler cache es f r).lockStarted = true ∧
    (CacheHandler cache es f r).lockReleased = true ∧
    (CacheHandler cache es f r).deregistered = true ∧
    (CacheHandler cache es f r).saved = none ∧
    (CacheHandler cache es f r).added = none := by
  simp only [CacheHandler, hp, hm]
  rw [if_pos trivial, hc]
  rw [if_neg (by decide : ¬(false = true)), if_neg (by decide : ¬(false = true))]
  rw [hs, if_pos rfl]
  simp [emptyResult]

/-- C3 (witness): the amended statement evaluated on a concrete PUT whose
space reservation is refused. -/
theorem c3_put_failure_paths_respond_witness :
    noFaults.syncErr = none ∧
    (CacheHandler idxEmpty esNever noFaults
      { method := "PUT", urlPath := "/ac/" ++ hashA, remoteAddr := "1.2.3.4:5678"
        contentLength := 9, body := [] }).fatal = false ∧
    (CacheHandler idxEmpty esNever noFaults
      { method := "PUT", urlPath := "/ac/" ++ hashA, remoteAddr := "1.2.3.4:5678"
        contentLength := 9, body := [] }).panicked = false ∧
    ((CacheHandler idxEmpty esNever noFaults
      { method := "PUT", urlPath := "/ac/" ++ hashA, remoteAddr := "1.2.3.4:5678"
        contentLength := 9, body := [] }).response).isSome = true ∧
    ((CacheHandler idxEmpty esNever noFaults
      { method := "PUT", urlPath := "/ac/" ++ hashA, remoteAddr := "1.2.3.4:5678"
        contentLength := 9, body := [] }).lockStarted = true →
      (CacheHandler idxEmpty esNever noFaults
        { method := "PUT", urlPath := "/ac/" ++ hashA, remoteAddr := "1.2.3.4:5678"
          contentLength := 9, body := [] }).lockReleased = true ∧
      (CacheHandler idxEmpty esNever noFaults
        { method := "PUT", urlPath := "/ac/" ++ hashA, remoteAddr := "1.2.3.4:5678"
          contentLength := 9, body := [] }).deregistered = true) := by
  refine ⟨rfl, ?_⟩
  have h := c3_put_failure_paths_respond idxEmpty esNever noFaults
    { method := "PUT", urlPath := "/ac/" ++ hashA, remoteAddr := "1.2.3.4:5678"
      contentLength := 9, body := [] } rfl rfl
  exact ⟨h.1, h.2.1, h.2.2.1, h.2.2.2⟩

/-- C4 (counterexample): for the destination `/cache/ac/<hashA>` the
temporary file is created in the cache root `/cache` — the directory
handed to `ioutil.TempFile` — while the destination's own directory
(`filepath.Dir`) is `/cache/ac`: the temp file is not allocated in the
same directory as the destination path. -/
theorem c4_temp_not_in_destination_dir :
    ∃ item : cacheItem,
      cacheItemFromRequestPath ("/ac/" ++ hashA) "/cache" = Except.ok item ∧
      (saveToDisk "/cache" item [0] noFaults).tempDirArg = some "/cache" ∧
      (saveToDisk "/cache" item [0] noFaults).renamed = true ∧
      String.mk (goDirName item.absFilePath.data) = "/cache/ac" ∧
      ("/cache" : String) ≠ "/cache/ac" := by
  refine ⟨{ hash := hashA, absFilePath := "/cache/ac/" ++ hashA, verifyHash := false },
    ?_, ?_, ?_, ?_, ?_⟩ <;> decide

/-- C4 (amended): whenever `ioutil.TempFile` succeeds, the temporary
staging file is allocated in the cache base directory `h.cache.Dir()` —
the parent of the two bucket directories, on the same filesystem as the
destination, but not the destination's own directory. -/
theorem c4_temp_file_in_base_dir (baseDir : String) (item : cacheItem)
    (body : List Nat) (f : Faults) (h : f.tempCreateErr = none) :
    (saveToDisk baseDir item body f).tempDirArg = some baseDir := by
  unfold saveToDisk
  simp only [h]
  repeat' split
  all_goals rfl

/-- C4 (witness): the amended statement evaluated at a concrete write. -/
theorem c4_temp_file_in_base_dir_witness :
    noFaults.tempCreateErr = none ∧
    (saveToDisk "/cache"
      { hash := hashA, absFilePath := "/cache/ac/" ++ hashA, verifyHash := false }
      [] noFaults).tempDirArg = some "/cache" :=
  ⟨rfl, c4_temp_file_in_base_dir "/cache"
    { hash := hashA, absFilePath := "/cache/ac/" ++ hashA, verifyHash := false }
    [] noFaults rfl⟩

/-- C8 (witness): the 507 path evaluated on a concrete PUT. -/
theorem c8_ensure_space_refusal_witness :
    cacheItemFromRequestPath "/cas/aaaaaaaaaaaaaaaaaaaaaaaaaaaaaaaaaaaaaaaaaaaaaaaaaaaaaaaaaaaaaaaa" "/cache"
      = Except.ok { hash := hashA, absFilePath := "/cache/cas/" ++ hashA, verifyHash := true } ∧
    (CacheHandler idxEmpty esNever noFaults
      { method := "PUT", urlPath := "/cas/aaaaaaaaaaaaaaaaaaaaaaaaaaaaaaaaaaaaaaaaaaaaaaaaaaaaaaaaaaaaaaaa"
        remoteAddr := "1.2.3.4:5678", contentLength := 5, body := [] }).response
      = some (507, "The disk is full. File could not be uploaded.\n") ∧
    (CacheHandler idxEmpty esNever noFaults
      { method := "PUT", urlPath := "/cas/aaaaaaaaaaaaaaaaaaaaaaaaaaaaaaaaaaaaaaaaaaaaaaaaaaaaaaaaaaaaaaaa"
        remoteAddr := "1.2.3.4:5678", contentLength := 5, body := [] }).saved = none ∧
    (CacheHandler idxEmpty esNever noFaults
      { method := "PUT", urlPath := "/cas/aaaaaaaaaaaaaaaaaaaaaaaaaaaaaaaaaaaaaaaaaaaaaaaaaaaaaaaaaaaaaaaa"
        remoteAddr := "1.2.3.4:5678", contentLength := 5, body := [] }).added = none ∧
    (CacheHandler idxEmpty esNever noFaults
      { method := "PUT", urlPath := "/cas/aaaaaaaaaaaaaaaaaaaaaaaaaaaaaaaaaaaaaaaaaaaaaaaaaaaaaaaaaaaaaaaa"
        remoteAddr := "1.2.3.4:5678", contentLength := 5, body := [] }).lockReleased = true := by
  refine ⟨by decide, ?_⟩
  have h := c8_ensure_space_refusal idxEmpty esNever noFaults
    { method := "PUT", urlPath := "/cas/aaaaaaaaaaaaaaaaaaaaaaaaaaaaaaaaaaaaaaaaaaaaaaaaaaaaaaaaaaaaaaaa"
      remoteAddr := "1.2.3.4:5678", contentLength := 5, body := [] }
    { hash := hashA, absFilePath := "/cache/cas/" ++ hashA, verifyHash := true }
    (by decide) rfl (by decide) rfl
  exact ⟨h.1, h.2.2.2.2.2.1, h.2.2.2.2.2.2, h.2.2.2.1⟩

/-- C9: when the final rename fails, `saveToDisk` returns the original
rename error unchanged — the best-effort cleanup removes a stray file at
the destination path, and a cleanup failure is only logged (one extra
`log` line), never propagated in place of the rename error — and the
dispatcher reports exactly that rename error in the 500 response. -/
theorem c9_rename_failure_reports_rename_error (baseDir : String) (item : cacheItem)
    (body : List Nat) (f : Faults) (e2 : String)
    (h1 : f.tempCreateErr = none) (h2 : f.readErrAfter = none)
    (h3 : f.syncErr = none) (h4 : f.renameErr = some e2)
    (h5 : item.verifyHash = true → item.hash = sha256hex body) :
    (saveToDisk baseDir item body f).result = Except.error e2 ∧
    (saveToDisk baseDir item body f).renamed = false ∧
    (saveToDisk baseDir item body f).fatal = false ∧
    (f.removeErr = none →
      (saveToDisk baseDir item body f).finalRemoved = true ∧
      (saveToDisk baseDir item body f).stdLog
        = ["Failed renaming " ++ (baseDir ++ "/upload" ++ f.tmpRand)
            ++ " to its final destination " ++ item.absFilePath ++ ": " ++ e2]) ∧
    (∀ re, f.removeErr = some re →
      (saveToDisk baseDir item body f).finalRemoved = false ∧
      (saveToDisk baseDir item body f).stdLog
        = ["Failed renaming " ++ (baseDir ++ "/upload" ++ f.tmpRand)
            ++ " to its final destination " ++ item.absFilePath ++ ": " ++ e2,
           "Failed cleaning up " ++ (baseDir ++ "/upload" ++ f.tmpRand)
            ++ " after a failure to rename it to its final destination: " ++ re]) ∧
    (∀ (cache : CacheIndex) (es : CacheIndex → Int → Bool) (r : Request),
      cacheItemFromRequestPath r.urlPath cache.dir = Except.ok item →
      cache.dir = baseDir → r.body = body → r.method = "PUT" →
      cache.containsFile item.absFilePath = false →
      es cache r.contentLength = true →
      (CacheHandler cache es f r).response = some (500, e2 ++ "\n")) := by
  have hmm : (if item.verifyHash = true then
      (if item.hash ≠ sha256hex body then
        some ("Hashes don't match. Provided '" ++ item.hash ++ "', Actual '"
          ++ htmlEscapeString (sha256hex body) ++ "'.")
      else none) else none) = none := by
    cases hv : item.verifyHash with
    | false => simp
    | true => simp [h5 hv]
  cases hrm : f.removeErr with
  | none =>
      have hsave : saveToDisk baseDir item body f =
          { result := Except.error e2, tempDirArg := some baseDir
            tempPath := some (baseDir ++ "/upload" ++ f.tmpRand)
            tempRemoved := false, renamed := false, finalRemoved := true
            stdLog := ["Failed renaming " ++ (baseDir ++ "/upload" ++ f.tmpRand)
              ++ " to its final destination " ++ item.absFilePath ++ ": " ++ e2]
            fatal := false } := by
        unfold saveToDisk
        simp only [h1, h2, h3, h4, hrm]
        simp only [hmm]
        rfl
      refine ⟨by rw [hsave], by rw [hsave], by rw [hsave],
        fun _ => ⟨by rw [hsave], by rw [hsave]⟩,
        fun re hre => Option.noConfusion hre, ?_⟩
      intro cache es r hp hdir hbody hm hc hsp
      simp only [CacheHandler, hp, hm]
      rw [if_pos trivial, hc]
      rw [if_neg (by decide : ¬(false = true)), if_neg (by decide : ¬(false = true))]
      rw [hsp, if_neg (by decide : ¬(true = false))]
      rw [hdir, hbody, hsave]
      rfl
  | some re0 =>
      have hsave : saveToDisk baseDir item body f =
          { result := Except.error e2, tempDirArg := some baseDir
            tempPath := some (baseDir ++ "/upload" ++ f.tmpRand)
            tempRemoved := false, renamed := false, finalRemoved := false
            stdLog := ["Failed renaming " ++ (baseDir ++ "/upload" ++ f.tmpRand)
              ++ " to its final destination " ++ item.absFilePath ++ ": " ++ e2,
              "Failed cleaning up " ++ (baseDir ++ "/upload" ++ f.tmpRand)
              ++ " after a failure to rename it to its final destination: " ++ re0]
            fatal := false } := by
        unfold saveToDisk
        simp only [h1, h2, h3, h4, hrm]
        simp only [hmm]
        rfl
      refine ⟨by rw [hsave], by rw [hsave], by rw [hsave],
        fun hno => Option.noConfusion hno,
        fun re hre => ?_, ?_⟩
      · have hreq : re = re0 := by injection hre with h; exact h.symm
        subst hreq
        exact ⟨by rw [hsave], by rw [hsave]⟩
      · intro cache es r hp hdir hbody hm hc hsp
        simp only [CacheHandler, hp, hm]
        rw [if_pos trivial, hc]
        rw [if_neg (by decide : ¬(false = true)), if_neg (by decide : ¬(false = true))]
        rw [hsp, if_neg (by decide : ¬(true = false))]
        rw [hdir, hbody, hsave]
        rfl

/-- C9 (witness): a concrete rename failure with a failing cleanup. -/
theorem c9_rename_failure_witness :
    (saveToDisk "/cache"
      { hash := hashA, absFilePath := "/cache/ac/" ++ hashA, verifyHash := false }
      [1, 2] renameFaults).result
      = Except.error "rename: device busy" ∧
    (saveToDisk "/cache"
      { hash := hashA, absFilePath := "/cache/ac/" ++ hashA, verifyHash := false }
      [1, 2] renameFaults).renamed = false ∧
    (saveToDisk "/cache"
      { hash := hashA, absFilePath := "/cache/ac/" ++ hashA, verifyHash := false }
      [1, 2] renameFaults).stdLog
      = ["Failed renaming /cache/upload to its final destination /cache/ac/"
           ++ hashA ++ ": rename: device busy",
         "Failed cleaning up /cache/upload after a failure to rename it to its final destination: remove: permission denied"] := by
  have h := c9_rename_failure_reports_rename_error "/cache"
    { hash := hashA, absFilePath := "/cache/ac/" ++ hashA, verifyHash := false }
    [1, 2] renameFaults
    "rename: device busy" rfl rfl rfl rfl (fun hv => by cases hv)
  refine ⟨h.1, h.2.1, ?_⟩
  have h2 := h.2.2.2.2.1 "remove: permission denied" rfl
  rw [h2.2]
  decide

/-- C1: a PUT of a CAS item whose body hashes to something other than the
key rejects the write: the temp file is removed, nothing is renamed onto
the final path, the returned error message reports the expected and the
actual digest, the dispatcher responds 500 with that message, nothing is
registered with the cache-index, and a subsequent GET of the same key on
the resulting state returns 404. -/
theorem c1_cas_hash_mismatch_rejected (cache : CacheIndex)
    (es : CacheIndex → Int → Bool) (r : Request) (item : cacheItem)
    (hp : cacheItemFromRequestPath r.urlPath cache.dir = Except.ok item)
    (hm : r.method = "PUT") (hv : item.verifyHash = true)
    (hc : cache.containsFile item.absFilePath = false)
    (hs : es cache r.contentLength = true)
    (hh : sha256hex r.body ≠ item.hash) :
    ∃ so : SaveOutcome,
      (CacheHandler cache es noFaults r).saved = some so ∧
      so.tempRemoved = true ∧ so.renamed = false ∧
      so.result = Except.error ("Hashes don't match. Provided '" ++ item.hash
        ++ "', Actual '" ++ htmlEscapeString (sha256hex r.body) ++ "'.") ∧
      (CacheHandler cache es noFaults r).response = some (500,
        "Hashes don't match. Provided '" ++ item.hash ++ "', Actual '"
          ++ htmlEscapeString (sha256hex r.body) ++ "'." ++ "\n") ∧
      (CacheHandler cache es noFaults r).added = none ∧
      (CacheHandler (addToIndex cache (CacheHandler cache es noFaults r).added) es noFaults
        { r with method := "GET" }).response = some (404, "") := by
  have hsave : saveToDisk cache.dir item r.body noFaults =
      { result := Except.error ("Hashes don't match. Provided '" ++ item.hash
          ++ "', Actual '" ++ htmlEscapeString (sha256hex r.body) ++ "'.")
        tempDirArg := some cache.dir
        tempPath := some (cache.dir ++ "/upload" ++ noFaults.tmpRand)
        tempRemoved := true, renamed := false, finalRemoved := false
        stdLog := [], fatal := false } := by
    unfold saveToDisk
    simp only [noFaults]
    rw [hv, if_pos rfl, if_pos (Ne.symm hh)]
  have hmain : CacheHandler cache es noFaults r =
      { emptyResult with
          response := some (500, "Hashes don't match. Provided '" ++ item.hash
            ++ "', Actual '" ++ htmlEscapeString (sha256hex r.body) ++ "'." ++ "\n")
          errorLog := ["Error saving file: " ++ ("Hashes don't match. Provided '"
            ++ item.hash ++ "', Actual '" ++ htmlEscapeString (sha256hex r.body) ++ "'.")]
          saved := some (saveToDisk cache.dir item r.body noFaults)
          lockStarted := true, lockReleased := true, deregistered := true } := by
    simp only [CacheHandler, hp, hm]
    rw [if_pos trivial, hc]
    rw [if_neg (by decide : ¬(false = true)), if_neg (by decide : ¬(false = true))]
    rw [hs, if_neg (by decide : ¬(true = false))]
    rw [hsave]
    rfl
  refine ⟨saveToDisk cache.dir item r.body noFaults, by rw [hmain] <;> rfl,
    by rw [hsave], by rw [hsave], by rw [hsave], by rw [hmain] <;> rfl,
    by rw [hmain] <;> rfl, ?_⟩
  have hadd : (CacheHandler cache es noFaults r).added = none := by
    rw [hmain] <;> rfl
  rw [hadd]
  simp only [CacheHandler, addToIndex, hp]
  rw [if_pos trivial, hc, if_pos rfl]

/-- C1 (witness): a concrete CAS PUT whose empty body does not hash to
the all-`a` key. -/
theorem c1_cas_hash_mismatch_witness :
    sha256hex [] ≠ hashA ∧
    ∃ so : SaveOutcome,
      (CacheHandler idxEmpty esAlways noFaults
        { method := "PUT", urlPath := "/cas/" ++ hashA, remoteAddr := "1.2.3.4:5678"
          contentLength := 0, body := [] }).saved = some so ∧
      so.tempRemoved = true ∧ so.renamed = false ∧
      so.result = Except.error ("Hashes don't match. Provided '" ++ hashA
        ++ "', Actual '" ++ htmlEscapeString (sha256hex []) ++ "'.") ∧
      (CacheHandler idxEmpty esAlways noFaults
        { method := "PUT", urlPath := "/cas/" ++ hashA, remoteAddr := "1.2.3.4:5678"
          contentLength := 0, body := [] }).response = some (500,
        "Hashes don't match. Provided '" ++ hashA ++ "', Actual '"
          ++ htmlEscapeString (sha256hex []) ++ "'." ++ "\n") ∧
      (CacheHandler idxEmpty esAlways noFaults
        { method := "PUT", urlPath := "/cas/" ++ hashA, remoteAddr := "1.2.3.4:5678"
          contentLength := 0, body := [] }).added = none ∧
      (CacheHandler (addToIndex idxEmpty (CacheHandler idxEmpty esAlways noFaults
          { method := "PUT", urlPath := "/cas/" ++ hashA, remoteAddr := "1.2.3.4:5678"
            contentLength := 0, body := [] }).added) esAlways noFaults
        { method := "GET", urlPath := "/cas/" ++ hashA, remoteAddr := "1.2.3.4:5678"
          contentLength := 0, body := [] }).response = some (404, "") := by
  refine ⟨by decide, ?_⟩
  exact c1_cas_hash_mismatch_rejected idxEmpty esAlways
    { method := "PUT", urlPath := "/cas/" ++ hashA, remoteAddr := "1.2.3.4:5678"
      contentLength := 0, body := [] }
    { hash := hashA, absFilePath := "/cache/cas/" ++ hashA, verifyHash := true }
    (by decide) rfl rfl rfl rfl (by decide)

/-- C7: a PUT whose key the cache-index already reports present drains the
body, responds 200, never invokes the writer nor the lock nor `AddFile`,
and logs one access line; and after a successful first PUT of a new key
(which registers the object), an identical second PUT takes exactly that
no-op path: both respond 200 and the second performs no write. -/
theorem c7_put_idempotent :
    (∀ (cache : CacheIndex) (es : CacheIndex → Int → Bool) (f : Faults)
        (r : Request) (item : cacheItem),
      cacheItemFromRequestPath r.urlPath cache.dir = Except.ok item →
      r.method = "PUT" →
      cache.containsFile item.absFilePath = true →
      (CacheHandler cache es f r).response = some (200, "") ∧
      (CacheHandler cache es f r).drained = true ∧
      (CacheHandler cache es f r).saved = none ∧
      (CacheHandler cache es f r).added = none ∧
      (CacheHandler cache es f r).lockStarted = false ∧
      (CacheHandler cache es f r).accessLog = [logResponseLine r 200]) ∧
    (∀ (cache : CacheIndex) (es : CacheIndex → Int → Bool) (r : Request)
        (item : cacheItem),
      cacheItemFromRequestPath r.urlPath cache.dir = Except.ok item →
      r.method = "PUT" →
      cache.containsFile item.absFilePath = false →
      es cache r.contentLength = true →
      (item.verifyHash = true → item.hash = sha256hex r.body) →
      (CacheHandler cache es noFaults r).response = some (200, "") ∧
      (CacheHandler cache es noFaults r).added
        = some (item.absFilePath, Int.ofNat r.body.length) ∧
      (CacheHandler (addToIndex cache (CacheHandler cache es noFaults r).added)
          es noFaults r).response = some (200, "") ∧
      (CacheHandler (addToIndex cache (CacheHandler cache es noFaults r).added)
          es noFaults r).saved = none ∧
      (CacheHandler (addToIndex cache (CacheHandler cache es noFaults r).added)
          es noFaults r).drained = true) := by
  constructor
  · intro cache es f r item hp hm hc
    simp only [CacheHandler, hp, hm]
    rw [if_pos trivial, hc, if_pos rfl]
    simp [emptyResult]
  · intro cache es r item hp hm hc hsp hhash
    have hmm : (if item.verifyHash = true then
        (if item.hash ≠ sha256hex r.body then
          some ("Hashes don't match. Provided '" ++ item.hash ++ "', Actual '"
            ++ htmlEscapeString (sha256hex r.body) ++ "'.")
        else none) else none) = none := by
      cases hv : item.verifyHash with
      | false => simp
      | true => simp [hhash hv]
    have hsave : saveToDisk cache.dir item r.body noFaults =
        { result := Except.ok (Int.ofNat r.body.length)
          tempDirArg := some cache.dir
          tempPath := some (cache.dir ++ "/upload" ++ noFaults.tmpRand)
          tempRemoved := false, renamed := true, finalRemoved := false
          stdLog := [], fatal := false } := by
      unfold saveToDisk
      simp only [noFaults]
      simp only [hmm]
      rfl
    have hmain : CacheHandler cache es noFaults r =
        { emptyResult with
            response := some (200, "")
            accessLog := [logResponseLine r 200]
            saved := some (saveToDisk cache.dir item r.body noFaults)
            added := some (item.absFilePath, Int.ofNat r.body.length)
            lockStarted := true, lockReleased := true, deregistered := true } := by
      simp only [CacheHandler, hp, hm]
      rw [if_pos trivial, hc]
      rw [if_neg (by decide : ¬(false = true)), if_neg (by decide : ¬(false = true))]
      rw [hsp, if_neg (by decide : ¬(true = false))]
      rw [hsave]
      rfl
    refine ⟨by rw [hmain] <;> rfl, by rw [hmain] <;> rfl, ?_, ?_, ?_⟩
    all_goals
      rw [hmain]
      simp only [CacheHandler, addToIndex, hp, hm]
      rw [if_neg (show ¬("PUT" = "GET") by decide)]
      rw [if_pos (show (decide True || cache.containsFile item.absFilePath) = true by simp)]
      simp [emptyResult]

/-- C7 (witness): two sequential PUTs of a fresh AC key evaluated
concretely — the first registers the object, the second drains and
responds 200 with no write. -/
theorem c7_put_idempotent_witness :
    (CacheHandler idxEmpty esAlways noFaults
      { method := "PUT", urlPath := "/ac/" ++ hashA, remoteAddr := "1.2.3.4:5678"
        contentLength := 2, body := [3, 4] }).response = some (200, "") ∧
    (CacheHandler idxEmpty esAlways noFaults
      { method := "PUT", urlPath := "/ac/" ++ hashA, remoteAddr := "1.2.3.4:5678"
        contentLength := 2, body := [3, 4] }).added
      = some ("/cache/ac/" ++ hashA, Int.ofNat 2) ∧
    (CacheHandler (addToIndex idxEmpty (CacheHandler idxEmpty esAlways noFaults
        { method := "PUT", urlPath := "/ac/" ++ hashA, remoteAddr := "1.2.3.4:5678"
          contentLength := 2, body := [3, 4] }).added) esAlways noFaults
      { method := "PUT", urlPath := "/ac/" ++ hashA, remoteAddr := "1.2.3.4:5678"
        contentLength := 2, body := [3, 4] }).response = some (200, "") ∧
    (CacheHandler (addToIndex idxEmpty (CacheHandler idxEmpty esAlways noFaults
        { method := "PUT", urlPath := "/ac/" ++ hashA, remoteAddr := "1.2.3.4:5678"
          contentLength := 2, body := [3, 4] }).added) esAlways noFaults
      { method := "PUT", urlPath := "/ac/" ++ hashA, remoteAddr := "1.2.3.4:5678"
        contentLength := 2, body := [3, 4] }).saved = none ∧
    (CacheHandler (addToIndex idxEmpty (CacheHandler idxEmpty esAlways noFaults
        { method := "PUT", urlPath := "/ac/" ++ hashA, remoteAddr := "1.2.3.4:5678"
          contentLength := 2, body := [3, 4] }).added) esAlways noFaults
      { method := "PUT", urlPath := "/ac/" ++ hashA, remoteAddr := "1.2.3.4:5678"
        contentLength := 2, body := [3, 4] }).drained = true := by
  have h := c7_put_idempotent.2 idxEmpty esAlways
    { method := "PUT", urlPath := "/ac/" ++ hashA, remoteAddr := "1.2.3.4:5678"
      contentLength := 2, body := [3, 4] }
    { hash := hashA, absFilePath := "/cache/ac/" ++ hashA, verifyHash := false }
    (by decide) rfl rfl rfl (fun hv => by cases hv)
  exact ⟨h.1, h.2.1, h.2.2.1, h.2.2.2.1, h.2.2.2.2⟩

/-- C6 (counterexample): the path `a\nb/cas/<64 hex>` consists of an
arbitrary prefix segment (`a\nb`), the bucket `cas/` and 64 lowercase hex
characters — the shape the claim says is accepted — yet the parser
rejects it, because `.` in Go's regexp does not match the newline in the
prefix. -/
theorem c6_newline_prefix_rejected :
    specKeyShape urlNL.data ∧
    (cacheItemFromRequestPath urlNL "/cache").isOk = false := by
  constructor
  · refine ⟨"a\nb/".data, "cas/".data, List.replicate 64 'a', by decide,
      Or.inr rfl, by decide, by decide, Or.inr (by decide)⟩
  · decide

/-- C6 (amended): parsing succeeds exactly when the path is arbitrary
prefix segments containing no newline, then bucket `ac/` or `cas/`, then
exactly 64 lowercase hex characters; the `cas/` bucket yields
`verifyHash = true` and `ac/` yields `verifyHash = false`; any other
shape produces the `MalformedKey` error carrying the HTML-escaped input,
which the dispatcher turns into a 400 response (with one access-log
line). -/
theorem c6_key_parser_characterization (url baseDir : String) :
    ((cacheItemFromRequestPath url baseDir).isOk = true ↔ codeKeyShape url.data) ∧
    (∀ q h, url.data = (q ++ "cas/".data) ++ h → h.length = 64 →
      (∀ c ∈ h, isLowerHexChar c = true) →
      (q = [] ∨ (q.getLast? = some '/' ∧ ∀ c ∈ q.dropLast, c ≠ '\n')) →
      cacheItemFromRequestPath url baseDir = Except.ok
        { hash := String.mk h
          absFilePath := String.mk (goJoin [baseDir.data, "cas/".data, h])
          verifyHash := true }) ∧
    (∀ q h, url.data = (q ++ "ac/".data) ++ h → h.length = 64 →
      (∀ c ∈ h, isLowerHexChar c = true) →
      (q = [] ∨ (q.getLast? = some '/' ∧ ∀ c ∈ q.dropLast, c ≠ '\n')) →
      cacheItemFromRequestPath url baseDir = Except.ok
        { hash := String.mk h
          absFilePath := String.mk (goJoin [baseDir.data, "ac/".data, h])
          verifyHash := false }) ∧
    (¬ codeKeyShape url.data →
      cacheItemFromRequestPath url baseDir = Except.error
        ("Resource name must be a SHA256 hash in hex. Got '"
          ++ htmlEscapeString url ++ "'.") ∧
      (∀ (cache : CacheIndex) (es : CacheIndex → Int → Bool) (f : Faults)
          (r : Request),
        r.urlPath = url → cache.dir = baseDir →
        (CacheHandler cache es f r).response = some (400,
          "Resource name must be a SHA256 hash in hex. Got '"
            ++ htmlEscapeString url ++ "'." ++ "\n") ∧
        (CacheHandler cache es f r).accessLog = [logResponseLine r 400])) := by
  refine ⟨cacheItemFromRequestPath_isOk_iff url baseDir, ?_, ?_, ?_⟩
  · intro q h hurl hlen hhex hpre
    exact cacheItemFromRequestPath_cas url baseDir q h hurl hlen hhex
      ((prefOk_iff q).mpr hpre)
  · intro q h hurl hlen hhex hpre
    exact cacheItemFromRequestPath_ac url baseDir q h hurl hlen hhex
      ((prefOk_iff q).mpr hpre)
  · intro hshape
    have herr := cacheItemFromRequestPath_error url baseDir hshape
    refine ⟨herr, ?_⟩
    intro cache es f r hru hcd
    have herr2 : cacheItemFromRequestPath r.urlPath cache.dir = Except.error
        ("Resource name must be a SHA256 hash in hex. Got '"
          ++ htmlEscapeString url ++ "'.") := by
      rw [hru, hcd]; exact herr
    simp only [CacheHandler, herr2]
    exact ⟨trivial, trivial⟩

/-- C6 (witness): the amended characterization applied to the concrete
path `/cas/<64 a>`. -/
theorem c6_key_parser_witness :
    cacheItemFromRequestPath ("/cas/" ++ hashA) "/cache" = Except.ok
      { hash := String.mk (List.replicate 64 'a')
        absFilePath := String.mk (goJoin ["/cache".data, "cas/".data,
          List.replicate 64 'a'])
        verifyHash := true } :=
  (c6_key_parser_characterization ("/cas/" ++ hashA) "/cache").2.1
    "/".data (List.replicate 64 'a') (by decide) (by decide) (by decide)
    (Or.inr (by decide))

/-- C10: for every URL the parser accepts against a clean rooted base
directory, the derived absolute path is exactly the base directory, one
of the two bucket directories, and the 64-hex-character hash as a final
path segment containing no separator and no dot — so no accepted request
addresses a file outside the two bucket directories. -/
theorem c10_no_path_traversal (url baseDir : String) (bsegs : List (List Char))
    (item : cacheItem)
    (hp : cacheItemFromRequestPath url baseDir = Except.ok item)
    (hbase : baseDir.data = '/' :: interSlash bsegs)
    (hbne : bsegs ≠ [])
    (hbseg : ∀ s ∈ bsegs, s ≠ [] ∧ s ≠ ['.'] ∧ s ≠ ['.', '.'] ∧ ∀ c ∈ s, c ≠ '/') :
    ∃ bucket, (bucket = "ac".data ∨ bucket = "cas".data) ∧
      item.absFilePath.data = baseDir.data ++ '/' :: (bucket ++ '/' :: item.hash.data) ∧
      item.hash.data.length = 64 ∧
      (∀ c ∈ item.hash.data, isLowerHexChar c = true) ∧
      (∀ c ∈ item.hash.data, c ≠ '/' ∧ c ≠ '.') := by
  obtain ⟨b, h, hm, hhash, hpath, _⟩ := cacheItemFromRequestPath_ok_shape url baseDir item hp
  obtain ⟨q, _, hb, hlen, hhex, _⟩ := blobNameSHA256_some url.data b h hm
  have hhne : h ≠ [] := by intro he; rw [he] at hlen; simp at hlen
  have hhdot : h ≠ ['.'] := by intro he; rw [he] at hlen; simp at hlen
  have hhdd : h ≠ ['.', '.'] := by intro he; rw [he] at hlen; simp at hlen
  have hhs : ∀ c ∈ h, c ≠ '/' := fun c hc => (isLowerHexChar_ne c (hhex c hc)).1
  have hdata : item.hash.data = h := by rw [hhash]
  rcases hb with hb | hb
  · refine ⟨"ac".data, Or.inl rfl, ?_, ?_, ?_, ?_⟩
    · rw [hpath, hdata, hbase]
      show goJoin ['/' :: interSlash bsegs, b, h]
        = ('/' :: interSlash bsegs) ++ '/' :: ("ac".data ++ '/' :: h)
      rw [hb]
      exact goJoin_rooted bsegs "ac".data h hbne hbseg (Or.inl rfl)
        hhne hhdot hhdd hhs
    · rw [hdata]; exact hlen
    · rw [hdata]; exact hhex
    · rw [hdata]
      exact fun c hc => ⟨(isLowerHexChar_ne c (hhex c hc)).1,
        (isLowerHexChar_ne c (hhex c hc)).2.1⟩
  · refine ⟨"cas".data, Or.inr rfl, ?_, ?_, ?_, ?_⟩
    · rw [hpath, hdata, hbase]
      show goJoin ['/' :: interSlash bsegs, b, h]
        = ('/' :: interSlash bsegs) ++ '/' :: ("cas".data ++ '/' :: h)
      rw [hb]
      exact goJoin_rooted bsegs "cas".data h hbne hbseg (Or.inr rfl)
        hhne hhdot hhdd hhs
    · rw [hdata]; exact hlen
    · rw [hdata]; exact hhex
    · rw [hdata]
      exact fun c hc => ⟨(isLowerHexChar_ne c (hhex c hc)).1,
        (isLowerHexChar_ne c (hhex c hc)).2.1⟩

/-- C10 (witness): the traversal-freedom statement evaluated at a
concrete accepted URL against the base directory `/cache`. -/
theorem c10_no_path_traversal_witness :
    ∃ bucket, (bucket = "ac".data ∨ bucket = "cas".data) ∧
      ("/cache/cas/" ++ hashA).data
        = "/cache".data ++ '/' :: (bucket ++ '/' :: hashA.data) ∧
      hashA.data.length = 64 ∧
      (∀ c ∈ hashA.data, isLowerHexChar c = true) ∧
      (∀ c ∈ hashA.data, c ≠ '/' ∧ c ≠ '.') := by
  have h := c10_no_path_traversal ("/cas/" ++ hashA) "/cache"
    [['c', 'a', 'c', 'h', 'e']]
    { hash := hashA, absFilePath := "/cache/cas/" ++ hashA, verifyHash := true }
    (by decide) (by decide) (by decide) (by decide)
  exact h
